import Mathlib

/-!
Verification of the traffic-class assignment, attachment, power-allocation and
flow-statistics logic of `kpm-project-11-no-rem.cc` (a 5G NR ns-3 scenario).
The C++ `main` is straight-line code with a few loops; each loop is embedded
below as a pure Lean function over the same data (endpoint indices, quotas,
rational arithmetic for the double-precision computations that involve no
transcendental functions, real arithmetic where `log10` appears).
-/

/-! ## Traffic-class assignment (source lines 181–206)

The distribution loop walks the ordered user-terminal list by index `j`
and appends the UE at index `j` to the voice container when `j % 2 == 0`,
otherwise to the browsing container.  Endpoints are identified by their
positional index in the ordered list, exactly as the loop fetches them with
`Get(j)`. -/

/-- Parity test from the source: `j % 2 == 0` sends index `j` to the voice
container. -/
def isVoiceIdx (j : Nat) : Bool := j % 2 == 0

/-- The UE-distribution loop: fold over indices `0..n-1`, appending each index
to the voice pool (first component) or the browsing pool (second component)
according to its parity, as in the source loop. -/
def uePools (n : Nat) : List Nat × List Nat :=
  (List.range n).foldl
    (fun acc j =>
      if isVoiceIdx j then (acc.1 ++ [j], acc.2) else (acc.1, acc.2 ++ [j]))
    ([], [])

lemma uePools_foldl_eq (l : List Nat) (acc : List Nat × List Nat) :
    l.foldl
      (fun acc j =>
        if isVoiceIdx j then (acc.1 ++ [j], acc.2) else (acc.1, acc.2 ++ [j]))
      acc
    = (acc.1 ++ l.filter isVoiceIdx, acc.2 ++ l.filter (fun j => !isVoiceIdx j)) := by
  induction l generalizing acc with
  | nil => simp
  | cons a l ih =>
      by_cases h : isVoiceIdx a
      · simp [h, ih, List.filter_cons]
      · simp [h, ih, List.filter_cons]

lemma uePools_eq_filter (n : Nat) :
    uePools n
      = ((List.range n).filter isVoiceIdx,
         (List.range n).filter (fun j => !isVoiceIdx j)) := by
  simp [uePools, uePools_foldl_eq]

lemma length_filter_voice (n : Nat) :
    ((List.range n).filter isVoiceIdx).length = (n + 1) / 2 := by
  induction n with
  | zero => rfl
  | succ n ih =>
      rw [List.range_succ, List.filter_append, List.length_append, ih]
      by_cases h : n % 2 = 0
      · simp [isVoiceIdx, h]
        omega
      · simp [isVoiceIdx, h]
        omega

lemma length_filter_browse (n : Nat) :
    ((List.range n).filter (fun j => !isVoiceIdx j)).length = n / 2 := by
  induction n with
  | zero => rfl
  | succ n ih =>
      rw [List.range_succ, List.filter_append, List.length_append, ih]
      by_cases h : n % 2 = 0
      · simp [isVoiceIdx, h]
        omega
      · simp [isVoiceIdx, h]
        omega

/-- C2: for every ordered sequence of `n` endpoints (identified by positional
index), the class-assignment loop places each even index in the voice pool and
each odd index in the browsing pool in input order (the pools equal the parity
filters of `range n`), with `|Voice| = ⌈n/2⌉`, `|Browsing| = ⌊n/2⌋`, and
`|Voice| + |Browsing| = n`. -/
theorem uePools_parity_split (n : Nat) :
    (uePools n).1 = (List.range n).filter isVoiceIdx ∧
    (uePools n).2 = (List.range n).filter (fun j => !isVoiceIdx j) ∧
    (uePools n).1.length = (n + 1) / 2 ∧
    (uePools n).2.length = n / 2 ∧
    (uePools n).1.length + (uePools n).2.length = n := by
  refine ⟨?_, ?_, ?_, ?_, ?_⟩
  · rw [uePools_eq_filter]
  · rw [uePools_eq_filter]
  · rw [uePools_eq_filter]; exact length_filter_voice n
  · rw [uePools_eq_filter]; exact length_filter_browse n
  · rw [uePools_eq_filter]
    simp only [length_filter_voice, length_filter_browse]
    omega

/-! ## Manual attachment loop (source lines 485–529)

The loop keeps two running indices `callIndex` and `browseIndex` into the
voice / browsing device pools.  For each base station `i` and each local slot
`j < numUePerGnb`: even slots expect a voice endpoint, odd slots a browsing
endpoint.  If the class's running index is still below the class quota
(`totalUesCall` / `totalUesBrowse`) the endpoint at that pool index is
attached to station `i` and the index advances; otherwise the slot is skipped
and the warning reads the pool at the (unadvanced) running index. -/

/-- State of the manual attachment loop: the two running pool indices, the
attachments made so far (`(isVoice, poolIndex, stationIndex)` in attachment
order), and the skip diagnostics (`(isVoice, poolIndexRead, stationIndex)`,
one per skipped slot, recording the pool index the warning reads). -/
structure AttachState where
  callIndex : Nat
  browseIndex : Nat
  attachments : List (Bool × Nat × Nat)
  skips : List (Bool × Nat × Nat)
deriving Repr, DecidableEq

/-- One slot `j` of base station `i`: even slot takes the next voice endpoint
if the voice quota `qv` is not exhausted, odd slot the next browsing endpoint
under quota `qb`; an exhausted class records a skip diagnostic that reads the
pool at the current running index. -/
def attachSlot (qv qb i j : Nat) (s : AttachState) : AttachState :=
  if j % 2 == 0 then
    if s.callIndex < qv then
      { s with
        callIndex := s.callIndex + 1
        attachments := s.attachments ++ [(true, s.callIndex, i)] }
    else
      { s with skips := s.skips ++ [(true, s.callIndex, i)] }
  else
    if s.browseIndex < qb then
      { s with
        browseIndex := s.browseIndex + 1
        attachments := s.attachments ++ [(false, s.browseIndex, i)] }
    else
      { s with skips := s.skips ++ [(false, s.browseIndex, i)] }

/-- Inner loop over the `slots` local slot positions of base station `i`. -/
def attachGnb (qv qb slots i : Nat) (s : AttachState) : AttachState :=
  (List.range slots).foldl (fun s2 j => attachSlot qv qb i j s2) s

/-- The whole manual attachment loop over `numGnb` base stations, starting
from both running indices at `0` with nothing attached. -/
def attachLoop (numGnb slots qv qb : Nat) : AttachState :=
  (List.range numGnb).foldl (fun s i => attachGnb qv qb slots i s) ⟨0, 0, [], []⟩

/-- Pool indices of the voice attachments, in attachment order. -/
def voicePoolIdxs (s : AttachState) : List Nat :=
  (s.attachments.filter (fun a => a.1)).map (fun a => a.2.1)

/-- Pool indices of the browsing attachments, in attachment order. -/
def browsePoolIdxs (s : AttachState) : List Nat :=
  (s.attachments.filter (fun a => !a.1)).map (fun a => a.2.1)

/-- Loop invariant: the running indices stay within the quotas and each class's
attached pool indices are exactly `0, 1, …, runningIndex - 1` in order. -/
def AttachInv (qv qb : Nat) (s : AttachState) : Prop :=
  s.callIndex ≤ qv ∧ s.browseIndex ≤ qb ∧
  voicePoolIdxs s = List.range s.callIndex ∧
  browsePoolIdxs s = List.range s.browseIndex

lemma foldl_preserves {α β : Type} (P : β → Prop) (f : β → α → β)
    (hstep : ∀ s a, P s → P (f s a)) :
    ∀ (l : List α) (s : β), P s → P (l.foldl f s) := by
  intro l
  induction l with
  | nil => intro s hs; exact hs
  | cons a l ih => intro s hs; exact ih (f s a) (hstep s a hs)

lemma attachSlot_inv (qv qb i j : Nat) (s : AttachState)
    (h : AttachInv qv qb s) : AttachInv qv qb (attachSlot qv qb i j s) := by
  obtain ⟨h1, h2, h3, h4⟩ := h
  have h3' : ((s.attachments.filter (fun a => a.1)).map (fun a => a.2.1))
      = List.range s.callIndex := h3
  have h4' : ((s.attachments.filter (fun a => !a.1)).map (fun a => a.2.1))
      = List.range s.browseIndex := h4
  by_cases hj : (j % 2 == 0) = true
  · by_cases hc : s.callIndex < qv
    · have he : attachSlot qv qb i j s =
          { s with
            callIndex := s.callIndex + 1
            attachments := s.attachments ++ [(true, s.callIndex, i)] } := by
        simp [attachSlot, hj, hc]
      rw [he]
      refine ⟨hc, h2, ?_, ?_⟩
      · simp [voicePoolIdxs, List.filter_append, h3', List.range_succ]
      · simp [browsePoolIdxs, List.filter_append, h4']
    · have he : attachSlot qv qb i j s =
          { s with skips := s.skips ++ [(true, s.callIndex, i)] } := by
        simp [attachSlot, hj, hc]
      rw [he]
      exact ⟨h1, h2, h3, h4⟩
  · by_cases hb : s.browseIndex < qb
    · have he : attachSlot qv qb i j s =
          { s with
            browseIndex := s.browseIndex + 1
            attachments := s.attachments ++ [(false, s.browseIndex, i)] } := by
        simp [attachSlot, hj, hb]
      rw [he]
      refine ⟨h1, hb, ?_, ?_⟩
      · simp [voicePoolIdxs, List.filter_append, h3']
      · simp [browsePoolIdxs, List.filter_append, h4', List.range_succ]
    · have he : attachSlot qv qb i j s =
          { s with skips := s.skips ++ [(false, s.browseIndex, i)] } := by
        simp [attachSlot, hj, hb]
      rw [he]
      exact ⟨h1, h2, h3, h4⟩

lemma attachLoop_inv (numGnb slots qv qb : Nat) :
    AttachInv qv qb (attachLoop numGnb slots qv qb) := by
  refine foldl_preserves (AttachInv qv qb) _ ?_ (List.range numGnb) _ ?_
  · intro s i hs
    exact foldl_preserves (AttachInv qv qb) _
      (fun s2 j hs2 => attachSlot_inv qv qb i j s2 hs2) (List.range slots) s hs
  · exact ⟨Nat.zero_le qv, Nat.zero_le qb, rfl, rfl⟩

/-- C1: for every voice quota `qv`, browsing quota `qb`, base-station count and
slots-per-station count, the attachment loop attaches at most `qv` voice
endpoints and at most `qb` browsing endpoints in total, and any pool index of a
class that appears in the attachment list appears with a single base station
(each endpoint is attached to at most one base station). -/
theorem attach_respects_quotas (numGnb slots qv qb : Nat) :
    ((attachLoop numGnb slots qv qb).attachments.filter (fun a => a.1)).length ≤ qv ∧
    ((attachLoop numGnb slots qv qb).attachments.filter (fun a => !a.1)).length ≤ qb ∧
    ∀ c p b1 b2,
      (c, p, b1) ∈ (attachLoop numGnb slots qv qb).attachments →
      (c, p, b2) ∈ (attachLoop numGnb slots qv qb).attachments → b1 = b2 := by
  obtain ⟨h1, h2, h3, h4⟩ := attachLoop_inv numGnb slots qv qb
  have lv : ((attachLoop numGnb slots qv qb).attachments.filter  (fun a => a.1)).length
      = (attachLoop numGnb slots qv qb).callIndex := by
    have := congrArg List.length h3
    simpa [voicePoolIdxs] using this
  have lb : ((attachLoop numGnb slots qv qb).attachments.filter (fun a => !a.1)).length
      = (attachLoop numGnb slots qv qb).browseIndex := by
    have := congrArg List.length h4
    simpa [browsePoolIdxs] using this
  refine ⟨by omega, by omega, ?_⟩
  intro c p b1 b2 hm1 hm2
  have hvnodup : (voicePoolIdxs (attachLoop numGnb slots qv qb)).Nodup := by
    rw [h3]; exact List.nodup_range _
  have hbnodup : (browsePoolIdxs (attachLoop numGnb slots qv qb)).Nodup := by
    rw [h4]; exact List.nodup_range _
  cases c with
  | true =>
      have m1 : (true, p, b1)
          ∈ (attachLoop numGnb slots qv qb).attachments.filter (fun a => a.1) := by
        simp [List.mem_filter, hm1]
      have m2 : (true, p, b2)
          ∈ (attachLoop numGnb slots qv qb).attachments.filter (fun a => a.1) := by
        simp [List.mem_filter, hm2]
      have := List.inj_on_of_nodup_map hvnodup m1 m2 rfl
      simpa using congrArg (fun t => t.2.2) this
  | false =>
      have m1 : (false, p, b1)
          ∈ (attachLoop numGnb slots qv qb).attachments.filter (fun a => !a.1) := by
        simp [List.mem_filter, hm1]
      have m2 : (false, p, b2)
          ∈ (attachLoop numGnb slots qv qb).attachments.filter (fun a => !a.1) := by
        simp [List.mem_filter, hm2]
      have := List.inj_on_of_nodup_map hbnodup m1 m2 rfl
      simpa using congrArg (fun t => t.2.2) this

/-- Witness for C1: at the built-in configuration (3 stations, 2 slots,
quotas 2 and 3), voice pool index 0 is attached, and applying the theorem to
the concrete double membership of `(true, 0, 0)` yields `0 = 0`. -/
theorem attach_respects_quotas_witness :
    ((true, 0, 0) ∈ (attachLoop 3 2 2 3).attachments) ∧ (0 : Nat) = 0 :=
  ⟨by decide,
   (attach_respects_quotas 3 2 2 3).2.2 true 0 0 0 (by decide) (by decide)⟩

/-- C9: under the built-in configuration (3 base stations, 2 slots each, voice
quota `totalUesCall = 2`, browsing quota `totalUesBrowse = 3`, pools obtained
by distributing the 6 UEs, i.e. 3 voice and 3 browsing devices), every pool
index read by an exhausted-quota skip diagnostic is strictly below the length
of the corresponding device pool. -/
theorem skipRead_within_pool :
    ∀ e, e ∈ (attachLoop 3 2 2 3).skips →
      e.2.1 < (if e.1 then (uePools 6).1.length else (uePools 6).2.length) := by
  decide

/-- Witness for C9: the single skip diagnostic recorded under the built-in
configuration is the voice read `(true, 2, 2)`, and its pool index 2 is below
the voice pool length. -/
theorem skipRead_within_pool_witness :
    ((true, 2, 2) ∈ (attachLoop 3 2 2 3).skips) ∧
      ((true, 2, 2) : Bool × Nat × Nat).2.1
        < (if ((true, 2, 2) : Bool × Nat × Nat).1 then (uePools 6).1.length
           else (uePools 6).2.length) :=
  ⟨by decide, skipRead_within_pool (true, 2, 2) (by decide)⟩

/-! ## gNB transmit-power configuration loop (source lines 386–404)

For each base station index `i` the loop computes
`txPower = 10 * log10((bandwidthBand1 / totalBandwidth) * x)` (the same value
every iteration) and then sets, on bandwidth part 0, the numerology of
station `i` but the `TxPower` of station **0** (`gnbNetDev.Get(0)`), and on
bandwidth part 1 the numerology and `TxPower` of station `i`.  The model
below tracks which `(station, partition)` cells receive a `TxPower` value:
`none` means the loop never set that cell. -/

/-- TxPower assignment produced by the gNB configuration loop: a map from
`(stationIndex, partitionIndex)` to the power written there, `none` when the
loop never writes the cell.  Each iteration `i` writes `txp` to `(0, 0)` and
to `(i, 1)`, mirroring `gnbNetDev.Get(0)` for partition 0 and
`gnbNetDev.Get(i)` for partition 1. -/
def gnbPowerLoop (numGnb : Nat) (txp : ℚ) : Nat × Nat → Option ℚ :=
  (List.range numGnb).foldl
    (fun pw i => fun c =>
      if c = (i, 1) then some txp
      else if c = (0, 0) then some txp
      else pw c)
    (fun _ => none)

/-- C3 (code bug evidence): with the built-in 3 base stations, partition 0 of
stations 1 and 2 never receives a transmit power (the loop writes partition 0
of station 0 on every iteration instead), while partition 1 of every station
and partition 0 of station 0 do receive the computed power — contradicting
the claim that every `(station, partition)` cell is set to the formula value
identically across stations. -/
theorem gnbPowerLoop_partition0_unset (txp : ℚ) :
    gnbPowerLoop 3 txp (1, 0) = none ∧
    gnbPowerLoop 3 txp (2, 0) = none ∧
    gnbPowerLoop 3 txp (0, 0) = some txp ∧
    gnbPowerLoop 3 txp (0, 1) = some txp ∧
    gnbPowerLoop 3 txp (1, 1) = some txp ∧
    gnbPowerLoop 3 txp (2, 1) = some txp := by
  refine ⟨rfl, rfl, rfl, rfl, rfl, rfl⟩

/-! ## Per-flow statistics (source lines 704–759)

Flow counters come from the external flow monitor.  `txPackets` and
`rxPackets` are unsigned machine integers of some width `w`; the C++
expression `i->second.txPackets - i->second.rxPackets` is unsigned
subtraction, i.e. subtraction modulo `2 ^ w`.  The delay and jitter sums are
converted to (double-precision) seconds; the rational field `ℚ` embeds every
computation of the report loop that involves no transcendental function,
with the convention that division by zero yields `0` (IEEE arithmetic would
yield NaN or an infinity there; the relevant claims are settled on the
structure of the computation, not on that value). -/

/-- One flow record as read from the flow monitor: packet/byte counters plus
delay and jitter sums in seconds. -/
structure FlowStats where
  txPackets : Nat
  rxPackets : Nat
  txBytes : Nat
  rxBytes : Nat
  delaySum : ℚ
  jitterSum : ℚ
deriving Repr, DecidableEq

/-- Unsigned machine subtraction `txPackets - rxPackets` at width `w`:
`(tx + 2 ^ w - rx) % 2 ^ w`, which for `tx, rx < 2 ^ w` is exactly
`(tx - rx) mod 2 ^ w`. -/
def lostPackets (w tx rx : Nat) : Nat := (tx + 2 ^ w - rx) % 2 ^ w

/-- C10: `lostPackets` is unsigned modular subtraction — when `rx ≤ tx` it is
the mathematical difference; when `tx < rx` it wraps to
`tx - rx + 2 ^ w` (an integer strictly above `tx`, hence a loss percentage
above 100% whenever `tx > 0`); and it is never negative. -/
theorem lostPackets_wrap (w tx rx : Nat) (htx : tx < 2 ^ w) (hrx : rx < 2 ^ w) :
    (rx ≤ tx → lostPackets w tx rx = tx - rx) ∧
    (tx < rx → (lostPackets w tx rx : ℤ) = (tx : ℤ) - (rx : ℤ) + 2 ^ w) ∧
    (tx < rx → tx < lostPackets w tx rx) ∧
    (0 < tx → tx < rx →
      100 < (lostPackets w tx rx : ℚ) / (tx : ℚ) * 100) ∧
    0 ≤ (lostPackets w tx rx : ℤ) := by
  have hpow : 0 < 2 ^ w := Nat.pos_pow_of_pos w (by norm_num)
  refine ⟨?_, ?_, ?_, ?_, ?_⟩
  · intro hle
    have h1 : tx + 2 ^ w - rx = (tx - rx) + 2 ^ w := by omega
    rw [lostPackets, h1, Nat.add_mod_right]
    exact Nat.mod_eq_of_lt (by omega)
  · intro hlt
    have h1 : lostPackets w tx rx = tx + 2 ^ w - rx := by
      rw [lostPackets]
      exact Nat.mod_eq_of_lt (by omega)
    rw [h1]
    have h2 : rx ≤ tx + 2 ^ w := by omega
    push_cast [h2]
    ring
  · intro hlt
    have h1 : lostPackets w tx rx = tx + 2 ^ w - rx := by
      rw [lostPackets]
      exact Nat.mod_eq_of_lt (by omega)
    omega
  · intro htx0 hlt
    have h1 : lostPackets w tx rx = tx + 2 ^ w - rx := by
      rw [lostPackets]
      exact Nat.mod_eq_of_lt (by omega)
    have h2 : tx < lostPackets w tx rx := by omega
    have h3 : (tx : ℚ) < (lostPackets w tx rx : ℚ) := by exact_mod_cast h2
    have h4 : (0 : ℚ) < (tx : ℚ) := by exact_mod_cast htx0
    rw [div_mul_eq_mul_div, lt_div_iff₀ h4]
    nlinarith
  · exact Int.ofNat_nonneg _

/-- Witness for C10 at width 8 with `tx = 3 < rx = 5`: the wrapped difference
is `3 - 5 + 256 = 254`, exceeding `tx` and yielding a loss percentage above
100%. -/
theorem lostPackets_wrap_witness :
    ((3 : Nat) < 2 ^ 8 ∧ (5 : Nat) < 2 ^ 8) ∧
    (((5 : Nat) ≤ 3 → lostPackets 8 3 5 = 3 - 5) ∧
     ((3 : Nat) < 5 → (lostPackets 8 3 5 : ℤ) = ((3 : Nat) : ℤ) - ((5 : Nat) : ℤ) + 2 ^ 8) ∧
     ((3 : Nat) < 5 → 3 < lostPackets 8 3 5) ∧
     (0 < 3 → (3 : Nat) < 5 →
       100 < (lostPackets 8 3 5 : ℚ) / ((3 : Nat) : ℚ) * 100) ∧
     0 ≤ (lostPackets 8 3 5 : ℤ)) :=
  ⟨⟨by decide, by decide⟩, lostPackets_wrap 8 3 5 (by decide) (by decide)⟩

/-- Per-flow loss-percent line exactly as the report loop emits it (source
line 729): the value `((txPackets - rxPackets) * 1.0) / txPackets * 100` is
computed and written unconditionally for every flow; the `Option` codomain
marks whether the line carries a numeric value (`some`) or a degenerate-record
flag (`none`) — the source always produces a numeric expression. -/
def lossPercentLine (w : Nat) (s : FlowStats) : Option ℚ :=
  some ((lostPackets w s.txPackets s.rxPackets : ℚ) / (s.txPackets : ℚ) * 100)

/-- Loss percent as the specification describes it: computed only when
`txPackets > 0`, and flagged undefined (`none`) when `txPackets == 0`.
Stated from the spec's words for comparison with `lossPercentLine`. -/
def lossPercentFlagged (w : Nat) (s : FlowStats) : Option ℚ :=
  if s.txPackets = 0 then none
  else some ((lostPackets w s.txPackets s.rxPackets : ℚ) / (s.txPackets : ℚ) * 100)

/-- Counterexample to C5: for the flow record with `txPackets = 0` (all other
counters 0) the source computation produces the numeric value `some 0` (the
division by zero is performed; IEEE arithmetic would print NaN), whereas the
claimed degenerate-record branch would produce the flag `none`. -/
theorem lossPercent_not_flagged_cex :
    lossPercentLine 32 ⟨0, 0, 0, 0, 0, 0⟩ = some 0 ∧
    lossPercentFlagged 32 ⟨0, 0, 0, 0, 0, 0⟩ = none := by
  constructor
  · simp [lossPercentLine, lostPackets]
  · simp [lossPercentFlagged]

/-- C5 (amended): the per-flow report computes `lossPercent` by the
unconditional expression `lost / txPackets * 100` for every record — there is
no degenerate branch — and in particular for `txPackets = 0` the division by
zero is performed, yielding the numeric `some 0` in this embedding (IEEE: NaN)
rather than an undefined flag. -/
theorem lossPercent_division_unconditional (w : Nat) (s : FlowStats) :
    (lossPercentLine w s).isSome = true ∧
    (s.txPackets = 0 → lossPercentLine w s = some 0) := by
  constructor
  · rfl
  · intro h
    simp [lossPercentLine, h]

/-- Witness for C5 (amended) at a record with `txPackets = 0` and
`rxPackets = 5`. -/
theorem lossPercent_division_unconditional_witness :
    lossPercentLine 32 ⟨0, 5, 0, 250, 0, 0⟩ = some 0 :=
  (lossPercent_division_unconditional 32 ⟨0, 5, 0, 250, 0, 0⟩).2 rfl

/-! ## Aggregate statistics (source lines 690–759)

`averageFlowThroughput` and `averageFlowDelay` accumulate only over flows
with `rxPackets > 0`; the means divide the accumulators by `stats.size()`
(the total flow count) with no emptiness check. -/

/-- Accumulated throughput sum (Mbps) over flows with `rxPackets > 0`, as in
the report loop (`rxBytes * 8.0 / flowDuration / 1000 / 1000`). -/
def sumFlowThroughput (d : ℚ) (l : List FlowStats) : ℚ :=
  l.foldl
    (fun acc s =>
      if 0 < s.rxPackets then acc + (s.rxBytes : ℚ) * 8 / d / 1000 / 1000
      else acc)
    0

/-- Accumulated delay sum (ms) over flows with `rxPackets > 0`, as in the
report loop (`1000 * delaySum.GetSeconds() / rxPackets`). -/
def sumFlowDelay (l : List FlowStats) : ℚ :=
  l.foldl
    (fun acc s =>
      if 0 < s.rxPackets then acc + 1000 * s.delaySum / (s.rxPackets : ℚ)
      else acc)
    0

/-- Mean flow throughput exactly as the source computes it (line 755):
the accumulator divided by the flow count, unconditionally; `some` marks a
numeric value. -/
def meanFlowThroughputLine (d : ℚ) (l : List FlowStats) : Option ℚ :=
  some (sumFlowThroughput d l / (l.length : ℚ))

/-- Mean flow delay exactly as the source computes it (line 756). -/
def meanFlowDelayLine (l : List FlowStats) : Option ℚ :=
  some (sumFlowDelay l / (l.length : ℚ))

/-- Mean flow throughput as the specification describes it: flagged undefined
(`none`) when the flow count is zero.  Stated from the spec's words for
comparison with `meanFlowThroughputLine`. -/
def meanFlowThroughputFlagged (d : ℚ) (l : List FlowStats) : Option ℚ :=
  if l.length = 0 then none
  else some (sumFlowThroughput d l / (l.length : ℚ))

/-- Mean flow delay as the specification describes it: flagged undefined
(`none`) when the flow count is zero. -/
def meanFlowDelayFlagged (l : List FlowStats) : Option ℚ :=
  if l.length = 0 then none
  else some (sumFlowDelay l / (l.length : ℚ))

/-- Counterexample to C6: on an empty flow set the source produces the numeric
values `some 0` for both aggregates (it divides the zero accumulators by the
zero flow count; IEEE arithmetic would print NaN), whereas the claimed
explicit branch would produce the flag `none`. -/
theorem meanFlow_not_flagged_cex :
    meanFlowThroughputLine 1 [] = some 0 ∧
    meanFlowDelayLine [] = some 0 ∧
    meanFlowThroughputFlagged 1 [] = none ∧
    meanFlowDelayFlagged [] = none := by
  refine ⟨?_, ?_, rfl, rfl⟩
  · simp [meanFlowThroughputLine, sumFlowThroughput]
  · simp [meanFlowDelayLine, sumFlowDelay]

/-- C6 (amended): the aggregates are produced for every flow set — including
the empty one — by unconditionally dividing the accumulated sums by the flow
count; there is no emptiness branch, and on an empty flow set both means are
the numeric `some 0` in this embedding (IEEE: NaN), not an undefined flag. -/
theorem meanFlow_division_unconditional (d : ℚ) (l : List FlowStats) :
    ((meanFlowThroughputLine d l).isSome = true ∧
     (meanFlowDelayLine l).isSome = true) ∧
    (l = [] → meanFlowThroughputLine d l = some 0 ∧ meanFlowDelayLine l = some 0) := by
  refine ⟨⟨rfl, rfl⟩, ?_⟩
  rintro rfl
  constructor
  · simp [meanFlowThroughputLine, sumFlowThroughput]
  · simp [meanFlowDelayLine, sumFlowDelay]

/-- Witness for C6 (amended) on the empty flow set with the built-in
`flowDuration = 0.09` seconds. -/
theorem meanFlow_division_unconditional_witness :
    meanFlowThroughputLine (9 / 100) [] = some 0 ∧ meanFlowDelayLine [] = some 0 :=
  (meanFlow_division_unconditional (9 / 100) []).2 rfl

/-! ## Startup precondition checks (source lines 119–126)

Four `NS_ABORT_IF` conditions guard the run before any resource allocation:
equal carrier frequencies, two frequency-range checks written as
`f < 2e9 && f > 100e9`, and the endpoint / base-station count minima.
Frequencies are exact decimal doubles, embedded as rationals. -/

/-- The disjunction of the four `NS_ABORT_IF` conditions, `true` when the
program aborts at startup. -/
def startupAborts (f1 f2 : ℚ) (numTotalUe numGnb : Nat) : Bool :=
  decide (f1 = f2) ||
  (decide (f1 < 2000000000) && decide (f1 > 100000000000)) ||
  (decide (f2 < 2000000000) && decide (f2 > 100000000000)) ||
  (decide (numTotalUe < 5) || decide (numGnb < 2))

/-- C7 (code bug evidence): the frequency-range abort condition
`f < 2e9 && f > 100e9` is unsatisfiable (conjunction where the comment and the
spec intend a disjunction), so an out-of-range carrier frequency never aborts:
with `f1 = 1 GHz` — strictly below the 2 GHz lower bound — distinct from
`f2 = 28.2 GHz`, 6 endpoints and 3 base stations, `startupAborts` is `false`,
and the range conjunction is `false` for every frequency whatsoever. -/
theorem startupAborts_misses_out_of_range :
    (1000000000 : ℚ) < 2000000000 ∧
    startupAborts 1000000000 28200000000 6 3 = false ∧
    ∀ f : ℚ, (decide (f < 2000000000) && decide (f > 100000000000)) = false := by
  refine ⟨by norm_num, by norm_num [startupAborts], ?_⟩
  intro f
  by_cases h : f < 2000000000
  · have h2 : ¬ (f > 100000000000) := by
      have : f < 100000000000 := lt_trans h (by norm_num)
      exact not_lt.mpr (le_of_lt this)
    simp [h, h2]
  · simp [h]

/-! ## Report file and regression exit status (source lines 693–700, 770–809)

The program returns 1 if the report file cannot be opened.  After the run it
returns the regression verdict: for `argc == 0` it checks the first baseline,
for `argc == 1 && numUePerGnb == 9` the second, and in every other parameter
configuration it returns `EXIT_SUCCESS` with no check.  `EXIT_SUCCESS = 0`
and `EXIT_FAILURE = 1`. -/

/-- First regression baseline (source lines 774–787): both aggregates must lie
within a relative tolerance of `0.0001` around `56.258560` Mbps and
`0.553292` ms respectively. -/
def baseline1Pass (mft mfd : ℚ) : Bool :=
  decide (56258560 / 1000000 - 1 / 10000 * (56258560 / 1000000) ≤ mft) &&
  decide (mft ≤ 56258560 / 1000000 + 1 / 10000 * (56258560 / 1000000)) &&
  decide (553292 / 1000000 - 1 / 10000 * (553292 / 1000000) ≤ mfd) &&
  decide (mfd ≤ 553292 / 1000000 + 1 / 10000 * (553292 / 1000000))

/-- Second regression baseline (source lines 789–804): references
`47.858536` Mbps and `10.504189` ms with the same relative tolerance. -/
def baseline2Pass (mft mfd : ℚ) : Bool :=
  decide (47858536 / 1000000 - 1 / 10000 * (47858536 / 1000000) ≤ mft) &&
  decide (mft ≤ 47858536 / 1000000 + 1 / 10000 * (47858536 / 1000000)) &&
  decide (10504189 / 1000000 - 1 / 10000 * (10504189 / 1000000) ≤ mfd) &&
  decide (mfd ≤ 10504189 / 1000000 + 1 / 10000 * (10504189 / 1000000))

/-- Process exit status of the reporting / regression phase: 1 when the report
file cannot be opened (source line 699), otherwise the verdict of whichever
baseline branch applies (source lines 772–809). -/
def reportExitCode (fileOpened : Bool) (argc numUePerGnb : Nat)
    (mft mfd : ℚ) : Nat :=
  if fileOpened = false then 1
  else if argc = 0 then
    if baseline1Pass mft mfd then 0 else 1
  else if argc = 1 ∧ numUePerGnb = 9 then
    if baseline2Pass mft mfd then 0 else 1
  else 0

/-- A regression baseline is configured exactly in the two parameter
configurations the source checks: `argc == 0`, or `argc == 1` with
`numUePerGnb == 9`. -/
def baselineConfigured (argc numUePerGnb : Nat) : Bool :=
  argc == 0 || (argc == 1 && numUePerGnb == 9)

/-- Verdict of the configured baseline: the first baseline for `argc == 0`,
the second for `argc == 1 && numUePerGnb == 9`, vacuously `true` when no
baseline is configured. -/
def baselineVerdict (argc numUePerGnb : Nat) (mft mfd : ℚ) : Bool :=
  if argc = 0 then baseline1Pass mft mfd
  else if argc = 1 ∧ numUePerGnb = 9 then baseline2Pass mft mfd
  else true

/-- C8: the exit status is success (0) exactly when the report file opened
and either no regression baseline is configured or the configured baseline's
two aggregate metrics both fall within their tolerance bands; it is non-zero
when a configured baseline check fails or the report file could not be
opened. -/
theorem exit_status_spec (fileOpened : Bool) (argc numUePerGnb : Nat)
    (mft mfd : ℚ) :
    reportExitCode fileOpened argc numUePerGnb mft mfd = 0 ↔
      fileOpened = true ∧
        (baselineConfigured argc numUePerGnb = false ∨
         baselineVerdict argc numUePerGnb mft mfd = true) := by
  cases fileOpened with
  | false => simp [reportExitCode]
  | true =>
      by_cases h0 : argc = 0
      · by_cases hp : baseline1Pass mft mfd = true
        · simp [reportExitCode, baselineConfigured, baselineVerdict, h0, hp]
        · simp [reportExitCode, baselineConfigured, baselineVerdict, h0, hp]
      · by_cases h19 : argc = 1 ∧ numUePerGnb = 9
        · by_cases hp : baseline2Pass mft mfd = true
          · simp [reportExitCode, baselineConfigured, baselineVerdict, h0, h19,
              hp, h19.1, h19.2]
          · simp [reportExitCode, baselineConfigured, baselineVerdict, h0, h19,
              hp, h19.1, h19.2]
        · have hb : baselineConfigured argc numUePerGnb = false := by
            simp only [baselineConfigured, Bool.or_eq_false_iff,
              Bool.and_eq_false_iff]
            constructor
            · simpa using h0
            · by_cases h1 : argc = 1
              · right
                have h9 : numUePerGnb ≠ 9 := fun h9 => h19 ⟨h1, h9⟩
                simpa using h9
              · left
                simpa using h1
          simp [reportExitCode, h0, h19, hb]

/-! ## Proportional power allocation (source lines 278–279, 388–391)

`x = pow(10, totalTxPower / 10)` is the linear power budget and
`txPower = 10 * log10((bandwidth / totalBandwidth) * x)` the per-partition
power in dBm.  These are double-precision computations with `log10`, embedded
over the reals. -/

/-- Base-10 logarithm over the reals. -/
noncomputable def log10 (y : ℝ) : ℝ := Real.log y / Real.log 10

/-- Per-partition transmit power from the source:
`10 * log10((b / totalBW) * 10 ^ (p / 10))` where `b` is the partition's
bandwidth, `totalBW` the precomputed total bandwidth and `p` the dBm power
budget (`x = 10 ^ (p / 10)` is the linear budget). -/
noncomputable def txPowerFormula (b totalBW p : ℝ) : ℝ :=
  10 * log10 (b / totalBW * 10 ^ (p / 10))

/-- C4: for any two partitions with positive bandwidths `b1`, `b2`, any
positive total bandwidth and any power budget `p`, the allocated powers differ
by exactly `10 * log10 (b1 / b2)`, independently of `p`. -/
theorem txPower_ratio_invariant (b1 b2 totalBW p : ℝ)
    (hb1 : 0 < b1) (hb2 : 0 < b2) (hT : 0 < totalBW) :
    txPowerFormula b1 totalBW p - txPowerFormula b2 totalBW p
      = 10 * log10 (b1 / b2) := by
  have hx : (0 : ℝ) < (10 : ℝ) ^ (p / 10) :=
    Real.rpow_pos_of_pos (by norm_num) _
  rw [txPowerFormula, txPowerFormula, log10, log10, log10]
  rw [Real.log_mul (div_ne_zero hb1.ne' hT.ne') hx.ne',
    Real.log_mul (div_ne_zero hb2.ne' hT.ne') hx.ne',
    Real.log_div hb1.ne' hT.ne', Real.log_div hb2.ne' hT.ne',
    Real.log_div hb1.ne' hb2.ne']
  ring

/-- Witness for C4 with bandwidths 2 and 1, total bandwidth 3 and budget 35
dBm (the built-in `totalTxPower`). -/
theorem txPower_ratio_invariant_witness :
    (0 : ℝ) < 2 ∧ (0 : ℝ) < 1 ∧ (0 : ℝ) < 3 ∧
    txPowerFormula 2 3 35 - txPowerFormula 1 3 35 = 10 * log10 (2 / 1) :=
  ⟨by norm_num, by norm_num, by norm_num,
   txPower_ratio_invariant 2 1 3 35 (by norm_num) (by norm_num) (by norm_num)⟩
